import Mathlib

/-!
# Logo Downloader Pro — verification of the core search/cache/scoring logic

A shallow embedding of `logo_downloader.py` (the only source file of the
repository).  Pure logic (domain generation, scoring, SQLite table
operations, orchestrator state transitions) is translated into executable
Lean definitions; Qt signal emissions are modelled as explicit event lists,
network / HTML / JSON side effects as an explicit environment oracle, and
wall-clock time as an integer parameter (one unit = one day, matching the
`'-N days'` SQLite modifiers).  GUI-only fields (`pixmap`) and the opaque
`uuid` identifier of `LogoResult` are omitted: no modelled operation reads
them.
-/

namespace LogoDL

/-- Image payloads (`bytes` in Python) are opaque: only equality is ever
observed, so they are modelled as strings. -/
abbrev Bytes := String

/-- Model of `LogoResult` (src/logo_downloader.py, class LogoResult): one retrieved
logo candidate.  Field defaults mirror the Python constructor defaults.
`score` is a rational because `search_companywebsite` assigns
`score / 10` (true division). -/
structure LogoResult where
  companyName : String
  imageData : Option Bytes := none
  imageURL : Option String := none
  source : Option String := none
  formatType : Option String := none
  width : Option Int := none
  height : Option Int := none
  filePath : Option String := none
  score : ℚ := 0
  metadata : List (String × String) := []
  deriving DecidableEq, Repr

/-- One entry of the module-level `LOGO_SOURCES` registry. -/
structure SourceDesc where
  name : String
  priority : Int
  baseQuality : Int
  enabled : Bool
  deriving DecidableEq, Repr

/-- The static `LOGO_SOURCES` registry (src/logo_downloader.py lines
98-110), verbatim. -/
def LOGO_SOURCES : List SourceDesc :=
  [ ⟨"SimpleIcons", 5, 80, true⟩,
    ⟨"Brandfetch", 10, 90, true⟩,
    ⟨"Clearbit", 8, 75, true⟩,
    ⟨"Wikipedia", 7, 85, true⟩,
    ⟨"BrandDB", 6, 70, true⟩,
    ⟨"CompanyWebsite", 9, 85, true⟩,
    ⟨"SocialMedia", 4, 75, true⟩,
    ⟨"GoogleSearch", 3, 65, true⟩,
    ⟨"BingSearch", 2, 60, true⟩,
    ⟨"DuckDuckGo", 1, 60, true⟩,
    ⟨"VectorDB", 5, 80, true⟩ ]

/-- A row of the `logo_cache` table (`UNIQUE(company_name, source,
format_type)`).  The `id` autoincrement column is never read back and is
omitted.  `timestamp` is in days. -/
structure CacheRow where
  companyName : String
  source : String
  formatType : String
  imageData : Option Bytes
  imageURL : Option String
  width : Option Int
  height : Option Int
  score : ℚ
  timestamp : Int
  deriving DecidableEq, Repr

/-- A row of the `search_history` table (`UNIQUE(company_name)`). -/
structure HistRow where
  companyName : String
  timestamp : Int
  resultsCount : Nat
  deriving DecidableEq, Repr

/-- A row of the `favorites` table (`UNIQUE(company_name)`). -/
structure FavRow where
  companyName : String
  imageData : Option Bytes
  formatType : String
  timestamp : Int
  deriving DecidableEq, Repr

/-- The SQLite database state: the three tables created by
`Database.init_db`. -/
structure DB where
  logoCache : List CacheRow
  searchHistory : List HistRow
  favorites : List FavRow
  deriving DecidableEq, Repr

/-- The empty (freshly initialised) database. -/
def DB.empty : DB := ⟨[], [], []⟩

/-- Key equality for the `logo_cache` `UNIQUE(company_name, source,
format_type)` constraint. -/
def cacheKeyEq (r : CacheRow) (c s f : String) : Bool :=
  r.companyName = c ∧ r.source = s ∧ r.formatType = f

/-- Model of `Database.add_to_cache`: `INSERT OR REPLACE INTO logo_cache ...
CURRENT_TIMESTAMP`.  The `source` and `format_type` columns are `NOT NULL`;
a `None` value raises `sqlite3.IntegrityError`, which the method catches,
returning `False` with the table unchanged.  `INSERT OR REPLACE` deletes
any row conflicting on the unique key and inserts the new row. -/
def DB.addToCache (db : DB) (now : Int) (r : LogoResult) : Bool × DB :=
  match r.source, r.formatType with
  | some src, some fmt =>
      let row : CacheRow :=
        ⟨r.companyName, src, fmt, r.imageData, r.imageURL,
         r.width, r.height, r.score, now⟩
      (true, { db with logoCache :=
        db.logoCache.filter (fun q => !(cacheKeyEq q r.companyName src fmt))
          ++ [row] })
  | _, _ => (false, db)

/-- Stable insertion into a score-descending list: the new element goes
after all earlier elements whose score is ≥ its own.  Folding this over a
list reproduces a stable descending sort (SQLite `ORDER BY score DESC`,
Python `list.sort(..., reverse=True)`). -/
def insertDescBy (key : α → ℚ) (x : α) : List α → List α
  | [] => [x]
  | y :: ys => if key y ≥ key x then y :: insertDescBy key x ys else x :: y :: ys

/-- Stable sort, descending by `key`. -/
def sortDescBy (key : α → ℚ) (l : List α) : List α :=
  l.foldl (fun acc x => insertDescBy key x acc) []

/-- Model of `Database.get_from_cache`: rows for this company whose timestamp is
younger than `max_age_days` (`datetime(timestamp) > datetime('now', '-N
days')`), ordered by score descending, rehydrated into `LogoResult`s
(`file_path` and `metadata` are not restored). -/
def DB.getFromCache (db : DB) (now : Int) (company : String)
    (maxAgeDays : Int) : List LogoResult :=
  (sortDescBy (fun r => r.score)
      (db.logoCache.filter
        (fun r => r.companyName = company ∧ r.timestamp > now - maxAgeDays))).map
    (fun r =>
      { companyName := r.companyName, imageData := r.imageData,
        imageURL := r.imageURL, source := some r.source,
        formatType := some r.formatType, width := r.width,
        height := r.height, score := r.score })

/-- Key equality for the `search_history` `UNIQUE(company_name)`
constraint. -/
def histKeyEq (h : HistRow) (company : String) : Bool :=
  h.companyName = company

/-- Model of `Database.add_to_history`: `INSERT OR REPLACE INTO search_history`,
keyed by `UNIQUE(company_name)` — an upsert refreshing timestamp and
results count. -/
def DB.addToHistory (db : DB) (now : Int) (company : String)
    (resultsCount : Nat) : DB :=
  { db with searchHistory :=
      db.searchHistory.filter (fun h => !(histKeyEq h company))
        ++ [⟨company, now, resultsCount⟩] }

/-- Model of `Database.clear_cache`: with a `max_age_days` argument, delete only
`logo_cache` rows older than that age; with `None`, delete every
`logo_cache` row. -/
def DB.clearCache (db : DB) (now : Int) (maxAgeDays : Option Int) : DB :=
  match maxAgeDays with
  | some n =>
      { db with logoCache :=
          db.logoCache.filter (fun r => ¬ r.timestamp < now - n) }
  | none => { db with logoCache := [] }

/-! ## Python string primitives used by `generate_company_domains` -/

/-- Python `\s` (ASCII): space, tab, newline, carriage return, vertical
tab, form feed. -/
def pyIsSpace (c : Char) : Bool :=
  c = ' ' || c = '\t' || c = '\n' || c = '\r' ||
  c = Char.ofNat 11 || c = Char.ofNat 12

/-- A character kept by `re.sub(r'[^\w\s]', '', s)` (ASCII): word
characters `[a-zA-Z0-9_]` and whitespace. -/
def pyWordOrSpace (c : Char) : Bool :=
  c.isAlphanum || c = '_' || pyIsSpace c

/-- Model of `re.sub(r'[^\w\s]', '', s)`. -/
def removeSpecialChars (s : String) : String :=
  String.mk (s.data.filter pyWordOrSpace)

/-- Does the second list start with the first? -/
def listStarts : List Char → List Char → Bool
  | [], _ => true
  | _ :: _, [] => false
  | p :: ps, c :: cs => p = c && listStarts ps cs

/-- Does the list contain the pattern as a contiguous sublist? -/
def listHasSub (pat : List Char) : List Char → Bool
  | [] => pat.isEmpty
  | c :: cs => listStarts pat (c :: cs) || listHasSub pat cs

/-- Python `pat in s` substring test. -/
def strContains (s pat : String) : Bool :=
  listHasSub pat.data s.data

/-- Python `str.lower()` (ASCII case mapping; every input exercised here
is ASCII). -/
def pyLower (s : String) : String :=
  String.mk (s.data.map Char.toLower)

/-- Python `str.endswith(suffix)`. -/
def strEndsWith (s suffix : String) : Bool :=
  listStarts suffix.data.reverse s.data.reverse

/-- Python slice `s[:-n]`, for `0 < n ≤ len(s)`: drop the last `n`
characters. -/
def strDropRight (s : String) (n : Nat) : String :=
  String.mk (s.data.take (s.data.length - n))

/-- Worker for Python `str.split()`: split on whitespace runs, dropping
empty pieces; `cur` holds the current word, reversed. -/
def splitWsAux : List Char → List Char → List String
  | [], cur => if cur.isEmpty then [] else [String.mk cur.reverse]
  | c :: cs, cur =>
      if pyIsSpace c then
        if cur.isEmpty then splitWsAux cs []
        else String.mk cur.reverse :: splitWsAux cs []
      else splitWsAux cs (c :: cur)

/-- Python `str.split()` with no argument. -/
def pySplit (s : String) : List String :=
  splitWsAux s.data []

/-- Python `''.flatten(parts)`. -/
def strJoin (parts : List String) : String :=
  String.mk (parts.map String.data).flatten

/-- Python `'-'.flatten(parts)`. -/
def strJoinHyphen (parts : List String) : String :=
  String.mk ((parts.map String.data).intersperse ['-']).flatten

/-- Python `part[0]` as a one-character string (every `part` produced by
`pySplit` is nonempty). -/
def strTake1 (s : String) : String :=
  String.mk (s.data.take 1)

/-! ## `LogoSearchManager.generate_company_domains` -/

/-- The fixed legal-suffix list, in source order. -/
def legalSuffixes : List String :=
  [" inc", " corp", " llc", " ltd", " limited", " gmbh", " co",
   " company", " corporation"]

/-- The suffix-stripping loop: each suffix, in order, is stripped once if
the current name ends with it. -/
def stripLegalSuffixes (s : String) : String :=
  legalSuffixes.foldl
    (fun cur suf =>
      if strEndsWith cur suf then strDropRight cur suf.data.length else cur) s

/-- Cross one base name with the five TLDs, in source order. -/
def tldCross (d : String) : List String :=
  [d ++ ".com", d ++ ".org", d ++ ".io", d ++ ".co", d ++ ".net"]

/-- Model of `LogoSearchManager.generate_company_domains` (lines 1255-1315).
`list(set(result))` has no specified order; it is modelled by
`List.dedup`, which is membership-equivalent. -/
def generate_company_domains (companyName : String) : List String :=
  let clean0 := pyLower companyName
  let clean1 := stripLegalSuffixes clean0
  let cleanName := removeSpecialChars clean1
  let nameParts := pySplit cleanName
  let domains0 := [strJoin nameParts, strJoinHyphen nameParts]
  let domains1 :=
    if nameParts.length > 1 then
      domains0 ++
        [strJoin (nameParts.dropLast.map strTake1) ++ (nameParts.getLast?.getD "")]
    else domains0
  let domains2 :=
    if nameParts.length > 1 then
      domains1 ++ [strJoin (nameParts.map strTake1)]
    else domains1
  let result0 := domains2.flatMap tldCross
  let result1 := result0 ++ [companyName]
  let result2 := result1 ++
    (if strContains cleanName "google" then ["google.com"]
     else if strContains cleanName "microsoft" then ["microsoft.com"]
     else if strContains cleanName "amazon" then ["amazon.com"]
     else if strContains cleanName "facebook" || strContains cleanName "meta" then
       ["facebook.com", "meta.com"]
     else if strContains cleanName "apple" then ["apple.com"]
     else [])
  result2.dedup

/-! ## `LogoSearchWorker`: scoring and the `run` dispatch contract -/

/-- The settings fields read by the search workers and the manager, with
the defaults used at each `settings.get(...)` call site. -/
structure Settings where
  maxResults : Nat := 10
  searchAllSources : Bool := true
  cacheExpiryDays : Int := 30
  concurrentSearches : Nat := 3
  downloadPng : Bool := true
  downloadSvg : Bool := true
  googleApiKey : String := ""
  googleCx : String := ""
  bingApiKey : String := ""
  brandfetchApiKey : String := ""
  deriving Repr

/-- Python dict assignment `d[key] = val` on a string-keyed mapping. -/
def metaSet (m : List (String × String)) (key val : String) :
    List (String × String) :=
  m.filter (fun kv => ¬ kv.1 = key) ++ [(key, val)]

/-- Model of `LogoSearchWorker.add_result` (lines 538-551), up to the signal
emission: add the source's `base_quality` to the score, add 10 more if the
format is `svg`, and record `source` and `found_time` metadata.  `nowIso`
stands for `datetime.now().isoformat()`. -/
def add_result (source : SourceDesc) (nowIso : String) (r : LogoResult) :
    LogoResult :=
  let r1 := { r with score := r.score + source.baseQuality }
  let r2 :=
    if r1.formatType = some "svg" then { r1 with score := r1.score + 10 }
    else r1
  { r2 with metadata :=
      metaSet (metaSet r2.metadata "source" source.name) "found_time" nowIso }

/-- A signal a worker sends to the manager.  (`progress_update` signals
carry no orchestration content and are not modelled.) -/
inductive Signal where
  | res (r : LogoResult)
  | comp (sourceName : String) (ok : Bool)
  deriving DecidableEq, Repr

/-- Is this a `search_complete` signal? -/
def Signal.isComp : Signal → Bool
  | .comp _ _ => true
  | _ => false

/-- The observable behaviour of one `search_<source>` method call: the
candidates it emitted (each already passed through `add_result`), then
either a normal boolean return or an uncaught exception carrying a
message. -/
structure MethodRun where
  emitted : List LogoResult
  outcome : Except String Bool
  deriving Repr

/-- Model of `LogoSearchWorker.run` (lines 518-536): dispatch to
`search_<name.lower()>`.  `method = none` models a source whose method
does not exist (`hasattr` fails); otherwise `method` describes what the
dispatched call did.  Dispatch or search errors are caught by the
enclosing `try`, emitting `search_complete(name, False)`; candidates the
method emitted before raising have already been signalled. -/
def workerRun (sourceName : String) (method : Option MethodRun) :
    List Signal :=
  match method with
  | none => [.comp sourceName false]
  | some m =>
      m.emitted.map .res ++
        match m.outcome with
        | .ok b => [.comp sourceName b]
        | .error _ => [.comp sourceName false]

/-! ## `LogoSearchManager`: the search orchestrator

The manager's mutable fields are gathered into a state record; its Qt
signal emissions (`search_result`, `search_complete`, `progress_update`)
are appended to an `events` list.  Worker threads deliver their signals
through Qt's event loop; a run of the orchestrator is therefore
`start_search` followed by the handler invocations for an arbitrary
interleaving of worker signals, modelled as a list of `WEvent`s. -/

/-- A signal the manager emits to its caller/UI. -/
inductive MEvent where
  | progress (msg : String)
  | result (r : LogoResult)
  | complete (success : Bool) (results : List LogoResult)
  deriving DecidableEq, Repr

/-- Is this a terminal `search_complete` event? -/
def MEvent.isComplete : MEvent → Bool
  | .complete _ _ => true
  | _ => false

/-- Model of `LogoSearchManager` state: `self.results`, `self.workers`,
`self.completed_sources`, `self.active_workers`, `self.max_concurrent`,
`self.search_queue`, the database, and the emitted signals.
`startedWorkers` records one entry per `LogoSearchWorker` ever started
(`self.workers`). -/
structure ManagerState where
  company : String
  settings : Settings
  db : DB
  results : List LogoResult
  startedWorkers : List SourceDesc
  completedSources : List String
  activeWorkers : Int
  maxConcurrent : Nat
  queue : List SourceDesc
  events : List MEvent
  deriving Repr

/-- Model of `LogoSearchManager.__init__`: empty results/workers/queue, zero active
workers, `max_concurrent = settings['concurrent_searches']`. -/
def initManager (company : String) (settings : Settings) (db : DB) :
    ManagerState :=
  { company := company, settings := settings, db := db, results := [],
    startedWorkers := [], completedSources := [], activeWorkers := 0,
    maxConcurrent := settings.concurrentSearches, queue := [], events := [] }

/-- Model of `LogoSearchManager.start_worker`: create and start one worker thread
for a source, incrementing `active_workers`. -/
def start_worker (s : ManagerState) (src : SourceDesc) : ManagerState :=
  { s with startedWorkers := s.startedWorkers ++ [src],
           activeWorkers := s.activeWorkers + 1 }

/-- The `while not self.search_queue.empty() and self.active_workers <
self.max_concurrent` loop of `start_workers`, returning the remaining
queue, the new active-worker count, and the sources started (in order). -/
def startWorkersAux (maxC : Nat) :
    List SourceDesc → Int → List SourceDesc × Int × List SourceDesc
  | [], a => ([], a, [])
  | src :: rest, a =>
      if a < (maxC : Int) then
        let r := startWorkersAux maxC rest (a + 1)
        (r.1, r.2.1, src :: r.2.2)
      else (src :: rest, a, [])

/-- Model of `LogoSearchManager.start_workers` (lines 1197-1201). -/
def start_workers (s : ManagerState) : ManagerState :=
  let r := startWorkersAux s.maxConcurrent s.queue s.activeWorkers
  { s with queue := r.1, activeWorkers := r.2.1,
           startedWorkers := s.startedWorkers ++ r.2.2 }

/-- The `for result in cache_results` loop of `start_search`: append each
cached candidate to the result list and emit it as a result event. -/
def cacheEmit (l : List LogoResult) (st : ManagerState) : ManagerState :=
  l.foldl
    (fun st r => { st with results := st.results ++ [r],
                           events := st.events ++ [.result r] }) st

/-- Model of `LogoSearchManager.start_search` (lines 1173-1195).  `registry` stands
for the module-level `LOGO_SOURCES` list (passed explicitly so that
statements can quantify over the enabled set); `now` is the current time
in days.  Cache hits are emitted as result events without re-scoring; if
they already meet `max_results` and `search_all_sources` is off, the
search completes immediately (with `success=True` hard-coded).  Otherwise
every enabled source is queued and the initial worker batch started. -/
def start_search (now : Int) (registry : List SourceDesc)
    (s : ManagerState) : ManagerState :=
  let cacheResults := s.db.getFromCache now s.company s.settings.cacheExpiryDays
  let dispatch := fun (st : ManagerState) =>
    start_workers { st with queue := st.queue ++ registry.filter (fun d => d.enabled) }
  if cacheResults.isEmpty then dispatch s
  else
    let n := cacheResults.length
    let sA := { s with events :=
      s.events ++ [.progress ("Found " ++ toString n ++ " logos in cache")] }
    let sB := cacheEmit cacheResults sA
    if cacheResults.length ≥ s.settings.maxResults ∧ ¬ s.settings.searchAllSources then
      { sB with events := sB.events ++ [.complete true sB.results] }
    else dispatch sB

/-- Model of `LogoSearchManager.handle_search_result` (lines 1218-1237): append the
candidate, cache it, re-emit it; on reaching the early-stop threshold,
terminate all running workers (a thread-level action with no effect on the
manager's fields) and emit `search_complete(True, results)`. -/
def handle_search_result (now : Int) (r : LogoResult) (s : ManagerState) :
    ManagerState :=
  let s1 := { s with results := s.results ++ [r] }
  let s2 := { s1 with db := (s1.db.addToCache now r).2 }
  let s3 := { s2 with events := s2.events ++ [.result r] }
  if s3.results.length ≥ s3.settings.maxResults ∧ ¬ s3.settings.searchAllSources then
    { s3 with events := s3.events ++ [.complete true s3.results] }
  else s3

/-- Model of `LogoSearchManager.handle_search_complete` (lines 1239-1253): record
the finished source, decrement `active_workers`, refill worker slots from
the queue; when no worker remains active and the queue is empty, upsert
the history entry and emit `search_complete(len(results) > 0, results)`. -/
def handle_search_complete (now : Int) (sourceName : String)
    (s : ManagerState) : ManagerState :=
  let s1 := { s with
    completedSources :=
      if sourceName ∈ s.completedSources then s.completedSources
      else s.completedSources ++ [sourceName],
    activeWorkers := s.activeWorkers - 1 }
  let s2 := start_workers s1
  if s2.activeWorkers = 0 ∧ s2.queue.isEmpty then
    { s2 with db := s2.db.addToHistory now s2.company s2.results.length,
              events := s2.events ++
                [.complete (decide (s2.results.length > 0)) s2.results] }
  else s2

/-- One worker signal delivered to the manager. -/
inductive WEvent where
  | res (r : LogoResult)
  | done (sourceName : String)
  deriving DecidableEq, Repr

/-- Deliver one worker signal to the corresponding handler. -/
def mgrStep (now : Int) (s : ManagerState) : WEvent → ManagerState
  | .res r => handle_search_result now r s
  | .done n => handle_search_complete now n s

/-- Deliver a list of worker signals in order. -/
def mgrRun (now : Int) (s : ManagerState) : List WEvent → ManagerState
  | [] => s
  | e :: es => mgrRun now (mgrStep now s e) es

/-! ## Source adapters

Each `search_<source>` method is modelled as a function of an environment
oracle supplying the external effects: HTTP responses (`requests`), JSON
parsing (`response.json()`), `tldextract`, and HTML parsing
(`BeautifulSoup`).  An adapter invocation returns its boolean result
together with the candidates it emitted (each already routed through
`add_result`), in emission order.  Python exceptions raised by a `.get()`
call are modelled by the oracle returning `none`; each adapter's own
`try/except` structure is translated at that granularity.  Dictionary
navigation on ill-shaped JSON raises in Python; at every call site below
that exception is caught by the enclosing handler and produces the same
observable outcome (no emission, next loop iteration or `False` return)
as the falsy default, so the navigation helpers return the default. -/

/-- A parsed JSON value. -/
inductive Json where
  | null
  | bool (b : Bool)
  | num (n : Int)
  | str (s : String)
  | arr (xs : List Json)
  | obj (fields : List (String × Json))

/-- Python `d.get(key, default)`. -/
def Json.getD (j : Json) (key : String) (d : Json) : Json :=
  match j with
  | .obj fs => (fs.lookup key).getD d
  | _ => d

/-- Python `key in d`. -/
def Json.hasKey (j : Json) (key : String) : Bool :=
  match j with
  | .obj fs => (fs.lookup key).isSome
  | _ => false

/-- View a JSON value as a list (iteration target). -/
def Json.asArr : Json → List Json
  | .arr xs => xs
  | _ => []

/-- View a JSON value as a string, if it is one. -/
def Json.asStr : Json → Option String
  | .str s => some s
  | _ => none

/-- Python truthiness of a JSON value (`if logos:`, `if formats:`). -/
def Json.truthy : Json → Bool
  | .null => false
  | .bool b => b
  | .num n => ¬ n = 0
  | .str s => ¬ s = ""
  | .arr xs => ¬ xs.isEmpty
  | .obj fs => ¬ fs.isEmpty

/-- An HTTP response: status code and body bytes. -/
structure HttpResp where
  status : Nat
  content : Bytes
  deriving DecidableEq, Repr

/-- An `<img>` element as seen through BeautifulSoup in
`search_companywebsite`: the attributes the heuristic reads, with the
`img.get(attr, default)` defaults for absent attributes. -/
structure ImgTag where
  classAttr : List String := []
  idAttr : String := ""
  altAttr : String := ""
  srcAttr : String := ""
  widthAttr : String := ""
  heightAttr : String := ""
  deriving DecidableEq, Repr

/-- The external-effect oracle for one adapter invocation.  `httpGet url =
none` models `session.get(url)` raising (timeout/connection error);
`parseJson = none` models a JSON parse error; `tldx` is
`tldextract.extract` reduced to its `(domain, suffix)` components;
`parseHtml` is `BeautifulSoup(...).find_all('img')`. -/
structure Env where
  httpGet : String → Option HttpResp
  parseJson : Bytes → Option Json
  tldx : String → String × String
  parseHtml : Bytes → List ImgTag

/-- Does the string start with the given literal (Python
`str.startswith`)? -/
def strStarts (s pre : String) : Bool :=
  listStarts pre.data s.data

/-- Python `str.replace(' ', '')`. -/
def strRemoveSpaces (s : String) : String :=
  String.mk (s.data.filter (fun c => ¬ c = ' '))

/-- Python `str.replace(' ', '-')`. -/
def strSpaceToHyphen (s : String) : String :=
  String.mk (s.data.map (fun c => if c = ' ' then '-' else c))

/-- Python `' '.join(parts)`. -/
def strJoinSpace (parts : List String) : String :=
  String.mk ((parts.map String.data).intersperse [' ']).flatten

/-- Python `str.rstrip('/')`: remove all trailing slashes. -/
def rstripSlash (s : String) : String :=
  String.mk ((s.data.reverse.dropWhile (fun c => c = '/')).reverse)

/-- Python `int(s)` on a decimal string literal: optional surrounding
whitespace, optional sign, at least one digit; anything else raises
`ValueError`, modelled as `none`. -/
def pyParseInt (s : String) : Option Int :=
  let t := ((s.data.dropWhile pyIsSpace).reverse.dropWhile pyIsSpace).reverse
  let digitsVal := fun (ds : List Char) =>
    (ds.foldl (fun a c => a * 10 + (c.toNat - 48)) 0 : Int)
  match t with
  | [] => none
  | '-' :: ds =>
      if ¬ ds.isEmpty ∧ ds.all Char.isDigit then some (-(digitsVal ds)) else none
  | '+' :: ds =>
      if ¬ ds.isEmpty ∧ ds.all Char.isDigit then some (digitsVal ds) else none
  | ds => if ds.all Char.isDigit then some (digitsVal ds) else none

/-- Hexadecimal digits for percent-encoding. -/
def hexDigits : List Char := "0123456789ABCDEF".data

/-- Model of `urllib.parse.quote` for one ASCII character (default `safe='/'`):
alphanumerics and `_.-~/` pass through, everything else is
percent-encoded.  (Multi-byte UTF-8 encoding is not modelled; every
quoted string in this development is ASCII.) -/
def pyQuoteChar (c : Char) : List Char :=
  if c.isAlphanum || c = '_' || c = '.' || c = '-' || c = '~' || c = '/' then [c]
  else ['%', hexDigits.getD (c.toNat / 16 % 16) '0', hexDigits.getD (c.toNat % 16) '0']

/-- Model of `urllib.parse.quote(s)` (ASCII). -/
def pyQuote (s : String) : String :=
  String.mk (s.data.flatMap pyQuoteChar)

/-- The format-from-extension dispatch repeated verbatim at each download
site: `.svg` → svg, `.jpg`/`.jpeg` → jpg, anything else → png. -/
def formatFromURL (url : String) : String :=
  let l := pyLower url
  if strEndsWith l ".svg" then "svg"
  else if strEndsWith l ".jpg" || strEndsWith l ".jpeg" then "jpg"
  else "png"

/-- The per-invocation context a `LogoSearchWorker` carries: the source
descriptor it was constructed with (`self.source`), the company name, the
domain list handed over by the manager, and the settings. -/
structure WorkerCtx where
  source : SourceDesc
  company : String
  domains : List String
  settings : Settings
  nowIso : String := ""

/-- Route a freshly built `LogoResult` through `add_result`. -/
def emitVia (ctx : WorkerCtx) (r : LogoResult) : LogoResult :=
  add_result ctx.source ctx.nowIso r

/-- Is the JSON value the given string (Python `j == 'lit'`)? -/
def Json.isStrEq (j : Json) (s : String) : Bool :=
  match j with
  | .str t => t = s
  | _ => false

/-- The result of one search method: its boolean return value and the
candidates it emitted, in order. -/
abbrev SearchOut := Bool × List LogoResult

/-- Model of `LogoSearchWorker.search_simpleicons` (lines 553-592): try the
no-space, hyphenated and acronym slugs against the jsDelivr CDN; every 200
response yields an SVG candidate with base score 10.  A request error is
caught inside the loop and the next variation is tried. -/
def search_simpleicons (ctx : WorkerCtx) (env : Env) : SearchOut :=
  let variations :=
    [ strRemoveSpaces (pyLower ctx.company),
      strSpaceToHyphen (pyLower ctx.company),
      strJoin ((pySplit (pyLower ctx.company)).map strTake1) ]
  variations.foldl
    (fun acc slug0 =>
      let slug := String.mk (slug0.data.filter (fun c => c.isAlphanum || c = '-'))
      let url := "https://cdn.jsdelivr.net/npm/simple-icons@v9/icons/" ++ slug ++ ".svg"
      match env.httpGet url with
      | none => acc
      | some resp =>
          if resp.status = 200 then
            let r := emitVia ctx
              { companyName := ctx.company, imageData := some resp.content,
                imageURL := some url, source := some "SimpleIcons",
                formatType := some "svg", score := 10 }
            (true, acc.2 ++ [r])
          else acc)
    (false, [])

/-- One pass over a Brandfetch `formats` array for one format name: every
matching format with a truthy `src` (and the download toggle on) is
fetched; a 200 response emits a candidate.  The second component is the
exception flag: a raising fetch aborts the rest of the per-domain body
(Python's per-domain `try`), keeping the emissions already signalled. -/
def brandfetchFormats (ctx : WorkerCtx) (env : Env) (formats : List Json)
    (fmtName : String) (score : ℚ) (dlEnabled : Bool) (acc : SearchOut) :
    SearchOut × Bool :=
  formats.foldl
    (fun st fmt =>
      if st.2 then st
      else if (fmt.getD "format" .null).isStrEq fmtName &&
          (fmt.getD "src" .null).truthy && dlEnabled then
        match (fmt.getD "src" .null).asStr with
        | some srcUrl =>
            match env.httpGet srcUrl with
            | none => (st.1, true)
            | some resp =>
                if resp.status = 200 then
                  ((true, st.1.2 ++ [emitVia ctx
                    { companyName := ctx.company, imageData := some resp.content,
                      imageURL := some srcUrl, source := some "Brandfetch",
                      formatType := some fmtName, score := score }]), st.2)
                else st
        | none => (st.1, true)
      else st)
    (acc, false)

/-- The logo-processing block that `search_brandfetch` duplicates in its
authenticated (scores 15/20) and public (scores 10/15) branches: for each
logo of type "logo" with truthy formats, download the PNG formats, then
the SVG formats. -/
def brandfetchLogos (ctx : WorkerCtx) (env : Env) (brandData : Json)
    (pngScore svgScore : ℚ) (acc : SearchOut) : SearchOut × Bool :=
  let logos := (brandData.getD "logos" (.arr [])).asArr
  if ¬ logos.isEmpty then
    logos.foldl
      (fun st logo =>
        if st.2 then st
        else if (logo.getD "type" .null).isStrEq "logo" &&
            (logo.getD "formats" .null).truthy then
          let formats := (logo.getD "formats" .null).asArr
          let st1 := brandfetchFormats ctx env formats "png" pngScore
            ctx.settings.downloadPng st.1
          if st1.2 then st1
          else brandfetchFormats ctx env formats "svg" svgScore
            ctx.settings.downloadSvg st1.1
        else st)
      (acc, false)
  else (acc, false)

/-- Model of `LogoSearchWorker.search_brandfetch` (lines 594-732): with an API key,
query `brands/<domain.suffix>` for the first three domains; without one,
go through the public `search/<domain>` autocomplete first.  All request
and parse errors are caught per domain. -/
def search_brandfetch (ctx : WorkerCtx) (env : Env) : SearchOut :=
  if ¬ ctx.settings.brandfetchApiKey = "" then
    (ctx.domains.take 3).foldl
      (fun acc domain =>
        let t := env.tldx domain
        if ¬ t.1 = "" ∧ ¬ t.2 = "" then
          let brandUrl := "https://api.brandfetch.io/v2/brands/" ++ (t.1 ++ "." ++ t.2)
          match env.httpGet brandUrl with
          | none => acc
          | some resp =>
              if resp.status = 200 then
                match env.parseJson resp.content with
                | none => acc
                | some brandData =>
                    (brandfetchLogos ctx env brandData 15 20 acc).1
              else acc
        else acc)
      (false, [])
  else
    (ctx.domains.take 3).foldl
      (fun acc domain =>
        let searchUrl := "https://api.brandfetch.io/v2/search/" ++ pyQuote domain
        match env.httpGet searchUrl with
        | none => acc
        | some resp =>
            if resp.status = 200 then
              match env.parseJson resp.content with
              | none => acc
              | some data =>
                  if ¬ data.asArr.isEmpty then
                    match ((data.asArr.headD .null).getD "domain" .null).asStr with
                    | some foundDomain =>
                        if ¬ foundDomain = "" then
                          let brandUrl :=
                            "https://api.brandfetch.io/v2/brands/" ++ foundDomain
                          match env.httpGet brandUrl with
                          | none => acc
                          | some bresp =>
                              if bresp.status = 200 then
                                match env.parseJson bresp.content with
                                | none => acc
                                | some brandData =>
                                    (brandfetchLogos ctx env brandData 10 15 acc).1
                              else acc
                        else acc
                    | none => acc
                  else acc
            else acc)
      (false, [])

/-- Model of `LogoSearchWorker.search_clearbit` (lines 734-765): for every derived
domain with nonempty `tldextract` domain and suffix parts, probe the
Clearbit logo endpoint; each 200 response emits a PNG candidate with base
score 5. -/
def search_clearbit (ctx : WorkerCtx) (env : Env) : SearchOut :=
  ctx.domains.foldl
    (fun acc domain =>
      let t := env.tldx domain
      if ¬ t.1 = "" ∧ ¬ t.2 = "" then
        let url := "https://logo.clearbit.com/" ++ (t.1 ++ "." ++ t.2) ++ "?size=512"
        match env.httpGet url with
        | none => acc
        | some resp =>
            if resp.status = 200 then
              (true, acc.2 ++ [emitVia ctx
                { companyName := ctx.company, imageData := some resp.content,
                  imageURL := some url, source := some "Clearbit",
                  formatType := some "png", score := 5 }])
            else acc
      else acc)
    (false, [])

/-- The outcome of processing one Wikipedia page entry: a successful
emission (the method returns immediately), a fall-through (the `for` loop
moves on), or an uncaught exception (the method's single outer `try`
catches it and returns `False`). -/
inductive WikiStep where
  | found (out : SearchOut)
  | fellThrough
  | raised

/-- The `for img_page_id in img_pages` loop of `search_wikipedia`: the
first page with a nonempty `imageinfo` has its image URL downloaded; a
200 response emits one candidate (score 10, format from the URL
extension) and returns. -/
def wikiImgPagesLoop (ctx : WorkerCtx) (env : Env) :
    List (String × Json) → WikiStep
  | [] => .fellThrough
  | (_, imgPage) :: rest =>
      if imgPage.hasKey "imageinfo" &&
          ¬ (imgPage.getD "imageinfo" .null).asArr.isEmpty then
        match (((imgPage.getD "imageinfo" .null).asArr.headD .null).getD
            "url" .null).asStr with
        | some imageUrl =>
            match env.httpGet imageUrl with
            | none => .raised
            | some dresp =>
                if dresp.status = 200 then
                  .found (true, [emitVia ctx
                    { companyName := ctx.company, imageData := some dresp.content,
                      imageURL := some imageUrl, source := some "Wikipedia",
                      formatType := some (formatFromURL imageUrl), score := 10 }])
                else wikiImgPagesLoop ctx env rest
        | none => .raised
      else wikiImgPagesLoop ctx env rest

/-- Processing of one page of the `prop=images` query result: filter its
images for titles containing "logo" or "icon", then resolve and download
the first one via the `prop=imageinfo` query. -/
def wikiPageAttempt (ctx : WorkerCtx) (env : Env) (page : Json) : WikiStep :=
  if page.hasKey "images" then
    let logoImages := (page.getD "images" .null).asArr.filter
      (fun img =>
        strContains (pyLower (((img.getD "title" .null).asStr).getD "")) "logo" ||
        strContains (pyLower (((img.getD "title" .null).asStr).getD "")) "icon")
    if ¬ logoImages.isEmpty then
      let imageTitle := (((logoImages.headD .null).getD "title" .null).asStr).getD ""
      let imgUrl := "https://en.wikipedia.org/w/api.php?action=query&prop=imageinfo&iiprop=url&titles="
        ++ pyQuote imageTitle ++ "&format=json"
      match env.httpGet imgUrl with
      | none => .raised
      | some iresp =>
          if iresp.status = 200 then
            match env.parseJson iresp.content with
            | none => .raised
            | some imgData =>
                match (imgData.getD "query" (.obj [])).getD "pages" (.obj []) with
                | .obj imgPages => wikiImgPagesLoop ctx env imgPages
                | _ => .fellThrough
          else .fellThrough
    else .fellThrough
  else .fellThrough

/-- The `for page_id in pages` loop of `search_wikipedia`. -/
def wikiPagesLoop (ctx : WorkerCtx) (env : Env) :
    List (String × Json) → SearchOut
  | [] => (false, [])
  | (_, page) :: rest =>
      match wikiPageAttempt ctx env page with
      | .found out => out
      | .fellThrough => wikiPagesLoop ctx env rest
      | .raised => (false, [])

/-- Model of `LogoSearchWorker.search_wikipedia` (lines 767-838), after the page
title was found: query the page's images and walk them. -/
def wikiPageStep (ctx : WorkerCtx) (env : Env) (pageTitle : String) :
    SearchOut :=
  let pageUrl := "https://en.wikipedia.org/w/api.php?action=query&prop=images&titles="
    ++ pyQuote pageTitle ++ "&format=json"
  match env.httpGet pageUrl with
  | none => (false, [])
  | some presp =>
      if presp.status = 200 then
        match env.parseJson presp.content with
        | none => (false, [])
        | some pageData =>
            match (pageData.getD "query" (.obj [])).getD "pages" (.obj []) with
            | .obj pages => wikiPagesLoop ctx env pages
            | _ => (false, [])
      else (false, [])

/-- Model of `LogoSearchWorker.search_wikipedia` (lines 767-838): a two-hop lookup
(search API → page images → image info → download), one candidate at
most, with every failure reducing to `False` through the single outer
`try`. -/
def search_wikipedia (ctx : WorkerCtx) (env : Env) : SearchOut :=
  let searchUrl := "https://en.wikipedia.org/w/api.php?action=query&list=search&srsearch="
    ++ pyQuote ctx.company ++ "&format=json"
  match env.httpGet searchUrl with
  | none => (false, [])
  | some resp =>
      if resp.status = 200 then
        match env.parseJson resp.content with
        | none => (false, [])
        | some searchData =>
            if searchData.hasKey "query" &&
                (searchData.getD "query" .null).hasKey "search" &&
                ¬ ((searchData.getD "query" .null).getD "search" .null).asArr.isEmpty then
              match ((((searchData.getD "query" .null).getD "search" .null).asArr.headD
                  .null).getD "title" .null).asStr with
              | some pageTitle => wikiPageStep ctx env pageTitle
              | none => (false, [])
            else (false, [])
      else (false, [])

/-- Model of `LogoSearchWorker.search_branddb` (lines 840-844): a placeholder that
always returns `False` and emits nothing. -/
def search_branddb (_ctx : WorkerCtx) (_env : Env) : SearchOut :=
  (false, [])

/-- The `<img>` heuristic of `search_companywebsite` (lines 866-906): +20
for "logo" in the class list, +20 in the id, +15 in the alt text, +10 in
the src, +10 when both declared dimensions parse and lie in the
20–400 × 20–200 window. -/
def imgHeuristicScore (img : ImgTag) : Int :=
  let s1 := if strContains (pyLower (strJoinSpace img.classAttr)) "logo" then 20 else 0
  let s2 := if strContains (pyLower img.idAttr) "logo" then 20 else 0
  let s3 := if strContains (pyLower img.altAttr) "logo" then 15 else 0
  let s4 := if strContains (pyLower img.srcAttr) "logo" then 10 else 0
  let s5 :=
    if ¬ img.widthAttr = "" ∧ ¬ img.heightAttr = "" then
      match pyParseInt img.widthAttr, pyParseInt img.heightAttr with
      | some w, some h =>
          if 20 ≤ w ∧ w ≤ 400 ∧ 20 ≤ h ∧ h ≤ 200 then 10 else 0
      | _, _ => 0
    else 0
  s1 + s2 + s3 + s4 + s5

/-- Model of `LogoSearchWorker.search_companywebsite` (lines 846-954): fetch the
homepage of up to three derived domains, score every `<img>`, keep those
scoring ≥ 20, sort by score (stable, descending), download the top three,
and emit each successful download with result score `heuristic / 10`.
Download errors are caught per candidate. -/
def search_companywebsite (ctx : WorkerCtx) (env : Env) : SearchOut :=
  (ctx.domains.take 3).foldl
    (fun acc domain0 =>
      let domain := if strStarts domain0 "http" then domain0
        else "https://" ++ domain0
      match env.httpGet domain with
      | none => acc
      | some resp =>
          if resp.status = 200 then
            let imgs := env.parseHtml resp.content
            let logoCandidates :=
              (imgs.map (fun img => (img, imgHeuristicScore img))).filter
                (fun p => p.2 ≥ 20)
            let sortedCands := sortDescBy (fun p => (p.2 : ℚ)) logoCandidates
            (sortedCands.take 3).foldl
              (fun acc2 p =>
                let src0 := p.1.srcAttr
                if ¬ src0 = "" then
                  let src :=
                    if strStarts src0 "http" then src0
                    else if strStarts src0 "//" then "https:" ++ src0
                    else if strStarts src0 "/" then rstripSlash domain ++ src0
                    else rstripSlash domain ++ "/" ++ src0
                  match env.httpGet src with
                  | none => acc2
                  | some iresp =>
                      if iresp.status = 200 then
                        (true, acc2.2 ++ [emitVia ctx
                          { companyName := ctx.company,
                            imageData := some iresp.content,
                            imageURL := some src, source := some "CompanyWebsite",
                            formatType := some (formatFromURL src),
                            score := (p.2 : ℚ) / 10 }])
                      else acc2
                else acc2)
              acc
          else acc)
    (false, [])

/-- Model of `LogoSearchWorker.search_socialmedia` (lines 956-960): a placeholder
that always returns `False` and emits nothing. -/
def search_socialmedia (_ctx : WorkerCtx) (_env : Env) : SearchOut :=
  (false, [])

/-- Model of `LogoSearchWorker.search_googlesearch` (lines 962-1022): without both
API key and CX the method returns `False` immediately; otherwise it runs
one image search for `"<company> logo filetype:png OR filetype:svg"` and
downloads each item's link (up to the API's `num=5`), emitting score-5
candidates.  Download errors are caught per item. -/
def search_googlesearch (ctx : WorkerCtx) (env : Env) : SearchOut :=
  if ctx.settings.googleApiKey = "" ∨ ctx.settings.googleCx = "" then (false, [])
  else
    let query := ctx.company ++ " logo filetype:png OR filetype:svg"
    let url := "https://www.googleapis.com/customsearch/v1?q=" ++ pyQuote query
      ++ "&key=" ++ ctx.settings.googleApiKey ++ "&cx=" ++ ctx.settings.googleCx
      ++ "&searchType=image&num=5"
    match env.httpGet url with
    | none => (false, [])
    | some resp =>
        if resp.status = 200 then
          match env.parseJson resp.content with
          | none => (false, [])
          | some data =>
              let items := (data.getD "items" (.arr [])).asArr
              if ¬ items.isEmpty then
                items.foldl
                  (fun acc item =>
                    match (item.getD "link" .null).asStr with
                    | some link =>
                        if ¬ link = "" then
                          match env.httpGet link with
                          | none => acc
                          | some iresp =>
                              if iresp.status = 200 then
                                (true, acc.2 ++ [emitVia ctx
                                  { companyName := ctx.company,
                                    imageData := some iresp.content,
                                    imageURL := some link,
                                    source := some "GoogleSearch",
                                    formatType := some (formatFromURL link),
                                    score := 5 }])
                              else acc
                        else acc
                    | none => acc)
                  (false, [])
              else (false, [])
        else (false, [])

/-- Model of `LogoSearchWorker.search_bingsearch` (lines 1024-1084): same shape as
the Google variant, keyed by `bing_api_key`, reading `value` /
`contentUrl` from the response. -/
def search_bingsearch (ctx : WorkerCtx) (env : Env) : SearchOut :=
  if ctx.settings.bingApiKey = "" then (false, [])
  else
    let query := ctx.company ++ " logo filetype:png OR filetype:svg"
    let url := "https://api.bing.microsoft.com/v7.0/images/search?q="
      ++ pyQuote query ++ "&count=5"
    match env.httpGet url with
    | none => (false, [])
    | some resp =>
        if resp.status = 200 then
          match env.parseJson resp.content with
          | none => (false, [])
          | some data =>
              let items := (data.getD "value" (.arr [])).asArr
              if ¬ items.isEmpty then
                items.foldl
                  (fun acc item =>
                    match (item.getD "contentUrl" .null).asStr with
                    | some link =>
                        if ¬ link = "" then
                          match env.httpGet link with
                          | none => acc
                          | some iresp =>
                              if iresp.status = 200 then
                                (true, acc.2 ++ [emitVia ctx
                                  { companyName := ctx.company,
                                    imageData := some iresp.content,
                                    imageURL := some link,
                                    source := some "BingSearch",
                                    formatType := some (formatFromURL link),
                                    score := 5 }])
                              else acc
                        else acc
                    | none => acc)
                  (false, [])
              else (false, [])
        else (false, [])

/-- Model of `LogoSearchWorker.search_duckduckgo` (lines 1086-1145): query the
image endpoint for `"<company> official logo"` plus a format filter (svg
preferred over png), download the first five results, emitting score-5
candidates.  A JSON decode error falls through to `False`. -/
def search_duckduckgo (ctx : WorkerCtx) (env : Env) : SearchOut :=
  let searchTerm0 := ctx.company ++ " official logo"
  let searchTerm :=
    if ctx.settings.downloadSvg then searchTerm0 ++ " filetype:svg"
    else if ctx.settings.downloadPng then searchTerm0 ++ " filetype:png"
    else searchTerm0
  let url := "https://duckduckgo.com/i.js?q=" ++ pyQuote searchTerm ++ "&o=json"
  match env.httpGet url with
  | none => (false, [])
  | some resp =>
      if resp.status = 200 then
        match env.parseJson resp.content with
        | none => (false, [])
        | some data =>
            if data.hasKey "results" &&
                ¬ (data.getD "results" .null).asArr.isEmpty then
              ((data.getD "results" .null).asArr.take 5).foldl
                (fun acc imgResult =>
                  match (imgResult.getD "image" .null).asStr with
                  | some imageUrl =>
                      if ¬ imageUrl = "" then
                        match env.httpGet imageUrl with
                        | none => acc
                        | some iresp =>
                            if iresp.status = 200 then
                              (true, acc.2 ++ [emitVia ctx
                                { companyName := ctx.company,
                                  imageData := some iresp.content,
                                  imageURL := some imageUrl,
                                  source := some "DuckDuckGo",
                                  formatType := some (formatFromURL imageUrl),
                                  score := 5 }])
                            else acc
                      else acc
                  | none => acc)
                (false, [])
            else (false, [])
      else (false, [])

/-- Model of `LogoSearchWorker.search_vectordb` (lines 1147-1151): a placeholder
that always returns `False` and emits nothing. -/
def search_vectordb (_ctx : WorkerCtx) (_env : Env) : SearchOut :=
  (false, [])

/-- The dynamic dispatch of `LogoSearchWorker.run`: the method named
`search_<name>` for each lowered source name, `none` when no such method
exists. -/
def searchMethod : String → Option (WorkerCtx → Env → SearchOut)
  | "simpleicons" => some search_simpleicons
  | "brandfetch" => some search_brandfetch
  | "clearbit" => some search_clearbit
  | "wikipedia" => some search_wikipedia
  | "branddb" => some search_branddb
  | "companywebsite" => some search_companywebsite
  | "socialmedia" => some search_socialmedia
  | "googlesearch" => some search_googlesearch
  | "bingsearch" => some search_bingsearch
  | "duckduckgo" => some search_duckduckgo
  | "vectordb" => some search_vectordb
  | _ => none

/-- The observable outcome of dispatching one source by name, as `run`
does (`search_<source_name.lower()>`): the method's boolean result and its
emissions; a missing method contributes `False` and no candidates. -/
def dispatchRun (name : String) (ctx : WorkerCtx) (env : Env) : SearchOut :=
  match searchMethod (pyLower name) with
  | some f => f ctx env
  | none => (false, [])

/-- A full `LogoSearchWorker.run` for a source whose methods are the
modelled ones: the signal sequence the worker sends to the manager. -/
def runSource (ctx : WorkerCtx) (env : Env) : List Signal :=
  workerRun ctx.source.name
    ((searchMethod (pyLower ctx.source.name)).map
      (fun f => ⟨(f ctx env).2, .ok (f ctx env).1⟩))

/-! ## Concrete invocation contexts and environments

One environment per non-stub adapter, exhibiting a run in which the
adapter finds a logo.  Every URL below is exactly the one the modelled
adapter builds from the context. -/

/-- An environment in which every external effect fails or is empty. -/
def envNone : Env :=
  { httpGet := fun _ => none, parseJson := fun _ => none,
    tldx := fun _ => ("", ""), parseHtml := fun _ => [] }

/-- A worker context for the named source with the given settings:
company "acme", derived domains `["acme.com"]`. -/
def mkCtx (src : SourceDesc) (settings : Settings) : WorkerCtx :=
  { source := src, company := "acme", domains := ["acme.com"],
    settings := settings }

/-- Context for the SimpleIcons worker. -/
def ctxSimple : WorkerCtx := mkCtx ⟨"SimpleIcons", 5, 80, true⟩ {}

/-- Environment where the jsDelivr CDN has an `acme.svg` icon. -/
def envSimple : Env :=
  { envNone with
    httpGet := fun url =>
      if url = "https://cdn.jsdelivr.net/npm/simple-icons@v9/icons/acme.svg" then
        some (HttpResp.mk 200 "SVGDATA")
      else none }

/-- Context for the Brandfetch worker (no API key: public tier). -/
def ctxBrand : WorkerCtx := mkCtx ⟨"Brandfetch", 10, 90, true⟩ {}

/-- Environment where the Brandfetch public search resolves "acme.com"
and the brand record carries one downloadable PNG logo. -/
def envBrand : Env :=
  { envNone with
    httpGet := fun url =>
      if url = "https://api.brandfetch.io/v2/search/acme.com" then
        some (HttpResp.mk 200 "SEARCHJSON")
      else if url = "https://api.brandfetch.io/v2/brands/acme.com" then
        some (HttpResp.mk 200 "BRANDJSON")
      else if url = "http://img.example/acme.png" then
        some (HttpResp.mk 200 "PNGDATA")
      else none,
    parseJson := fun b =>
      if b = "SEARCHJSON" then
        some (.arr [.obj [("domain", .str "acme.com")]])
      else if b = "BRANDJSON" then
        some (.obj [("logos", .arr [.obj
          [("type", .str "logo"),
           ("formats", .arr [.obj
             [("format", .str "png"),
              ("src", .str "http://img.example/acme.png")]])]])])
      else none }

/-- Context for the Clearbit worker. -/
def ctxClear : WorkerCtx := mkCtx ⟨"Clearbit", 8, 75, true⟩ {}

/-- Environment where `tldextract` splits "acme.com" and the Clearbit
endpoint serves a logo. -/
def envClear : Env :=
  { envNone with
    tldx := fun d => if d = "acme.com" then ("acme", "com") else ("", ""),
    httpGet := fun url =>
      if url = "https://logo.clearbit.com/acme.com?size=512" then
        some (HttpResp.mk 200 "PNGDATA") else none }

/-- Context for the Wikipedia worker. -/
def ctxWiki : WorkerCtx := mkCtx ⟨"Wikipedia", 7, 85, true⟩ {}

/-- Environment for the Wikipedia two-hop lookup: search hit "Acme", a
page image "File:Acme logo.png", its resolved URL, and the download. -/
def envWiki : Env :=
  { envNone with
    httpGet := fun url =>
      if url = "https://en.wikipedia.org/w/api.php?action=query&list=search&srsearch=acme&format=json" then
        some (HttpResp.mk 200 "WIKI1")
      else if url = "https://en.wikipedia.org/w/api.php?action=query&prop=images&titles=Acme&format=json" then
        some (HttpResp.mk 200 "WIKI2")
      else if url = "https://en.wikipedia.org/w/api.php?action=query&prop=imageinfo&iiprop=url&titles=File%3AAcme%20logo.png&format=json" then
        some (HttpResp.mk 200 "WIKI3")
      else if url = "http://upload.example/acme-logo.png" then
        some (HttpResp.mk 200 "PNGDATA")
      else none,
    parseJson := fun b =>
      if b = "WIKI1" then
        some (.obj [("query", .obj [("search", .arr [.obj [("title", .str "Acme")]])])])
      else if b = "WIKI2" then
        some (.obj [("query", .obj [("pages", .obj [("1", .obj
          [("images", .arr [.obj [("title", .str "File:Acme logo.png")]])])])])])
      else if b = "WIKI3" then
        some (.obj [("query", .obj [("pages", .obj [("1", .obj
          [("imageinfo", .arr [.obj
            [("url", .str "http://upload.example/acme-logo.png")]])])])])])
      else none }

/-- Context for the CompanyWebsite worker. -/
def ctxSite : WorkerCtx := mkCtx ⟨"CompanyWebsite", 9, 85, true⟩ {}

/-- Environment where the homepage of acme.com has one `<img>` with class
"logo" and a relative src that downloads successfully. -/
def envSite : Env :=
  { envNone with
    httpGet := fun url =>
      if url = "https://acme.com" then some (HttpResp.mk 200 "HTMLDATA")
      else if url = "https://acme.com/logo.png" then some (HttpResp.mk 200 "PNGDATA")
      else none,
    parseHtml := fun b =>
      if b = "HTMLDATA" then
        [{ classAttr := ["logo"], srcAttr := "/logo.png" }]
      else [] }

/-- Context for the GoogleSearch worker, with API key and CX set. -/
def ctxGoogle : WorkerCtx :=
  mkCtx ⟨"GoogleSearch", 3, 65, true⟩ { googleApiKey := "K", googleCx := "X" }

/-- Environment where the Google custom search returns one image link. -/
def envGoogle : Env :=
  { envNone with
    httpGet := fun url =>
      if url = "https://www.googleapis.com/customsearch/v1?q=acme%20logo%20filetype%3Apng%20OR%20filetype%3Asvg&key=K&cx=X&searchType=image&num=5" then
        some (HttpResp.mk 200 "GOOGLEJSON")
      else if url = "http://img.example/g.png" then some (HttpResp.mk 200 "PNGDATA")
      else none,
    parseJson := fun b =>
      if b = "GOOGLEJSON" then
        some (.obj [("items", .arr [.obj [("link", .str "http://img.example/g.png")]])])
      else none }

/-- Context for the BingSearch worker, with API key set. -/
def ctxBing : WorkerCtx :=
  mkCtx ⟨"BingSearch", 2, 60, true⟩ { bingApiKey := "B" }

/-- Environment where the Bing image search returns one content URL. -/
def envBing : Env :=
  { envNone with
    httpGet := fun url =>
      if url = "https://api.bing.microsoft.com/v7.0/images/search?q=acme%20logo%20filetype%3Apng%20OR%20filetype%3Asvg&count=5" then
        some (HttpResp.mk 200 "BINGJSON")
      else if url = "http://img.example/b.png" then some (HttpResp.mk 200 "PNGDATA")
      else none,
    parseJson := fun b =>
      if b = "BINGJSON" then
        some (.obj [("value", .arr [.obj
          [("contentUrl", .str "http://img.example/b.png")]])])
      else none }

/-- Context for the DuckDuckGo worker. -/
def ctxDuck : WorkerCtx := mkCtx ⟨"DuckDuckGo", 1, 60, true⟩ {}

/-- Environment where the DuckDuckGo image endpoint returns one result. -/
def envDuck : Env :=
  { envNone with
    httpGet := fun url =>
      if url = "https://duckduckgo.com/i.js?q=acme%20official%20logo%20filetype%3Asvg&o=json" then
        some (HttpResp.mk 200 "DUCKJSON")
      else if url = "http://img.example/d.svg" then some (HttpResp.mk 200 "SVGDATA")
      else none,
    parseJson := fun b =>
      if b = "DUCKJSON" then
        some (.obj [("results", .arr [.obj
          [("image", .str "http://img.example/d.svg")]])])
      else none }

/-- The names of the placeholder sources (those whose search method
unconditionally returns failure and emits nothing). -/
def stubNames : List String := ["BrandDB", "SocialMedia", "VectorDB"]

/-- A database holding one fresh cache row for "acme" (timestamp 0). -/
def c1db : DB :=
  { logoCache := [⟨"acme", "Clearbit", "png", some "B", none, none, none, 5, 0⟩],
    searchHistory := [], favorites := [] }

/-- Settings asking for one result without searching all sources. -/
def c1settings : Settings := { maxResults := 1, searchAllSources := false }

/-- The candidate `get_from_cache` rehydrates from the row of `c1db`. -/
def c1cache : List LogoResult :=
  [⟨"acme", some "B", none, some "Clearbit", some "png", none, none, none, 5, []⟩]

/-- A concrete worker-produced candidate. -/
def c1result : LogoResult :=
  { companyName := "acme", imageData := some "A", source := some "Clearbit",
    formatType := some "png", score := 80 }

/-- A manager state about to drain: empty queue, one active worker. -/
def c1drainState : ManagerState :=
  { company := "acme", settings := {}, db := DB.empty, results := [],
    startedWorkers := [⟨"Clearbit", 8, 75, true⟩], completedSources := [],
    activeWorkers := 1, maxConcurrent := 3, queue := [], events := [] }

/-- The registry with every source's `enabled` flag cleared. -/
def c2registry : List SourceDesc :=
  LOGO_SOURCES.map (fun d => { d with enabled := false })

/-! ## Supporting lemmas -/

/-- Filtering by `p` after keeping only the elements refuting `p` leaves
nothing. -/
theorem filter_not_filter (p : α → Bool) :
    ∀ l : List α, (l.filter (fun a => !(p a))).filter p = [] := by
  intro l
  induction l with
  | nil => simp
  | cons a t ih =>
      by_cases h : p a = true <;> simp [List.filter_cons, h, ih]

/-- Model of `cacheEmit` only appends: the results gain the cached list, the
events gain one result event per cached candidate, and every other field
is untouched. -/
theorem cacheEmit_spec (l : List LogoResult) (st : ManagerState) :
    cacheEmit l st =
      { st with results := st.results ++ l,
                events := st.events ++ l.map MEvent.result } := by
  induction l generalizing st with
  | nil => simp [cacheEmit]
  | cons r t ih =>
      simp only [cacheEmit, List.foldl_cons] at ih ⊢
      rw [ih]
      simp

/-- Model of `add_to_cache` never touches the `search_history` table. -/
theorem addToCache_searchHistory (db : DB) (now : Int) (r : LogoResult) :
    ((db.addToCache now r).2).searchHistory = db.searchHistory := by
  unfold DB.addToCache
  cases r.source <;> cases r.formatType <;> rfl

/-- The `while` loop of `start_workers` never pushes the active-worker
count above the bound. -/
theorem startWorkersAux_le (m : Nat) :
    ∀ (l : List SourceDesc) (a : Int), a ≤ (m : Int) →
      (startWorkersAux m l a).2.1 ≤ (m : Int) := by
  intro l
  induction l with
  | nil => intro a h; simpa [startWorkersAux] using h
  | cons src rest ih =>
      intro a h
      by_cases hlt : a < (m : Int)
      · simpa [startWorkersAux, hlt] using ih (a + 1) (by omega)
      · simpa [startWorkersAux, hlt] using h

/-- Model of `start_workers` keeps the active-worker count within the bound. -/
theorem start_workers_active_le (s : ManagerState)
    (h : s.activeWorkers ≤ (s.maxConcurrent : Int)) :
    (start_workers s).activeWorkers ≤ ((start_workers s).maxConcurrent : Int) := by
  simpa [start_workers] using
    startWorkersAux_le s.maxConcurrent s.queue s.activeWorkers h

/-- Neither handler changes the concurrency bound. -/
theorem mgrStep_max (now : Int) (s : ManagerState) (e : WEvent) :
    (mgrStep now s e).maxConcurrent = s.maxConcurrent := by
  cases e with
  | res r =>
      show (handle_search_result now r s).maxConcurrent = s.maxConcurrent
      unfold handle_search_result
      dsimp only
      split <;> rfl
  | done n =>
      show (handle_search_complete now n s).maxConcurrent = s.maxConcurrent
      unfold handle_search_complete start_workers
      dsimp only
      split <;> split <;> rfl

/-- Each handler preserves the concurrency invariant. -/
theorem mgrStep_inv (now : Int) (s : ManagerState) (e : WEvent)
    (h : s.activeWorkers ≤ (s.maxConcurrent : Int)) :
    (mgrStep now s e).activeWorkers ≤ ((mgrStep now s e).maxConcurrent : Int) := by
  cases e with
  | res r =>
      show (handle_search_result now r s).activeWorkers ≤
        ((handle_search_result now r s).maxConcurrent : Int)
      unfold handle_search_result
      dsimp only
      split <;> exact h
  | done n =>
      show (handle_search_complete now n s).activeWorkers ≤
        ((handle_search_complete now n s).maxConcurrent : Int)
      unfold handle_search_complete start_workers
      dsimp only
      split <;> split <;>
        exact startWorkersAux_le s.maxConcurrent s.queue (s.activeWorkers - 1)
          (by omega)

/-- Delivering any signal sequence does not change the bound. -/
theorem mgrRun_max (now : Int) (tr : List WEvent) :
    ∀ s : ManagerState, (mgrRun now s tr).maxConcurrent = s.maxConcurrent := by
  induction tr with
  | nil => intro s; rfl
  | cons e es ih =>
      intro s
      calc (mgrRun now (mgrStep now s e) es).maxConcurrent
          = (mgrStep now s e).maxConcurrent := ih _
        _ = s.maxConcurrent := mgrStep_max now s e

/-- Delivering any signal sequence preserves the concurrency invariant. -/
theorem mgrRun_inv (now : Int) (tr : List WEvent) :
    ∀ s : ManagerState, s.activeWorkers ≤ (s.maxConcurrent : Int) →
      (mgrRun now s tr).activeWorkers ≤ ((mgrRun now s tr).maxConcurrent : Int) := by
  induction tr with
  | nil => intro s h; exact h
  | cons e es ih =>
      intro s h
      exact ih (mgrStep now s e) (mgrStep_inv now s e h)

/-- Model of `start_search` does not change the bound. -/
theorem start_search_max (now : Int) (registry : List SourceDesc)
    (s : ManagerState) :
    (start_search now registry s).maxConcurrent = s.maxConcurrent := by
  unfold start_search
  dsimp only
  split
  · simp [start_workers]
  · split
    · rw [cacheEmit_spec]
    · rw [cacheEmit_spec]; simp [start_workers]

/-- Model of `start_search` establishes the concurrency invariant from any state
satisfying it. -/
theorem start_search_inv (now : Int) (registry : List SourceDesc)
    (s : ManagerState) (h : s.activeWorkers ≤ (s.maxConcurrent : Int)) :
    (start_search now registry s).activeWorkers ≤
      ((start_search now registry s).maxConcurrent : Int) := by
  unfold start_search
  dsimp only
  split
  · exact start_workers_active_le _ h
  · split
    · rw [cacheEmit_spec]; exact h
    · rw [cacheEmit_spec]
      exact start_workers_active_le _ h

/-! ## Claim theorems -/

/-- C3: at every reachable orchestrator state — after `start_search` and
after delivery of any sequence of worker signals, for any registry (hence
any queue length) — the number of simultaneously running adapter workers
is at most the configured `concurrent_searches` bound. -/
theorem c3_concurrency_bound (now : Int) (company : String)
    (settings : Settings) (db : DB) (registry : List SourceDesc)
    (trace : List WEvent) :
    (mgrRun now (start_search now registry (initManager company settings db))
        trace).activeWorkers ≤ (settings.concurrentSearches : Int) := by
  have h0 : (initManager company settings db).activeWorkers ≤
      ((initManager company settings db).maxConcurrent : Int) := by
    simp [initManager]
  have h2 := mgrRun_inv now trace _ (start_search_inv now registry _ h0)
  have hm : (mgrRun now
      (start_search now registry (initManager company settings db))
        trace).maxConcurrent = settings.concurrentSearches := by
    rw [mgrRun_max, start_search_max]; rfl
  rw [hm] at h2
  exact h2

/-- C6: the Scorer's adjustment is additive — the final score is the
adapter-declared initial score plus the source's `base_quality`, plus 10
exactly when the format is svg; in particular initial 10 from an
80-quality source in svg format ends at 100. -/
theorem c6_scorer_additive :
    (∀ (src : SourceDesc) (nowIso : String) (r : LogoResult),
      (add_result src nowIso r).score =
        r.score + src.baseQuality +
          (if r.formatType = some "svg" then 10 else 0)) ∧
    (add_result ⟨"SimpleIcons", 5, 80, true⟩ ""
      { companyName := "acme", formatType := some "svg", score := 10 }).score
        = 100 := by
  constructor
  · intro src nowIso r
    unfold add_result
    dsimp only
    by_cases hf : r.formatType = some "svg" <;> simp [hf]
  · norm_num [add_result]

/-- C7: the domain generator on "Acme Inc" yields the TLD crossings of
the stripped base name "acme" and nothing containing "acme-inc" (the
" inc" legal suffix is stripped first); on "Google Cloud" the hard-coded
override contributes "google.com". -/
theorem c7_domain_generation :
    "acme.com" ∈ generate_company_domains "Acme Inc" ∧
    "acme.org" ∈ generate_company_domains "Acme Inc" ∧
    "acme.io" ∈ generate_company_domains "Acme Inc" ∧
    "acme.co" ∈ generate_company_domains "Acme Inc" ∧
    "acme.net" ∈ generate_company_domains "Acme Inc" ∧
    ((generate_company_domains "Acme Inc").all
      (fun d => !(strContains d "acme-inc"))) = true ∧
    "google.com" ∈ generate_company_domains "Google Cloud" := by
  decide

/-- C9: `clear_cache` mutates only the `logo_cache` table — with or
without a max-age argument, `search_history` and `favorites` are
unchanged. -/
theorem c9_clear_cache_frame (db : DB) (now : Int) (maxAgeDays : Option Int) :
    (db.clearCache now maxAgeDays).searchHistory = db.searchHistory ∧
    (db.clearCache now maxAgeDays).favorites = db.favorites := by
  cases maxAgeDays <;> exact ⟨rfl, rfl⟩

/-- C10: for every input the domain generator's result contains the
verbatim company name (hence is non-empty); for a punctuation-only input
the generated base names are empty, so the bare TLD suffixes appear. -/
theorem c10_verbatim_name_included :
    (∀ name : String, name ∈ generate_company_domains name) ∧
    (∀ name : String, generate_company_domains name ≠ []) ∧
    ".com" ∈ generate_company_domains "!!!" ∧
    ".org" ∈ generate_company_domains "!!!" ∧
    ".io" ∈ generate_company_domains "!!!" ∧
    ".co" ∈ generate_company_domains "!!!" ∧
    ".net" ∈ generate_company_domains "!!!" := by
  have hmem : ∀ name : String, name ∈ generate_company_domains name := by
    intro name
    unfold generate_company_domains
    dsimp only
    rw [List.mem_dedup]
    simp [List.mem_append]
  exact ⟨hmem, fun name => List.ne_nil_of_mem (hmem name),
    by decide, by decide, by decide, by decide, by decide⟩

/-- Result signals are not completion signals. -/
theorem filter_isComp_map_res (l : List LogoResult) :
    (l.map Signal.res).filter Signal.isComp = [] := by
  induction l with
  | nil => rfl
  | cons r t ih => simp [List.filter_cons, Signal.isComp, ih]

/-- Every worker run signals completion exactly once. -/
theorem workerRun_one_comp (n : String) (m : Option MethodRun) :
    ((workerRun n m).filter Signal.isComp).length = 1 := by
  cases m with
  | none => rfl
  | some mr =>
      obtain ⟨em, oc⟩ := mr
      cases oc <;>
        simp [workerRun, List.filter_append, filter_isComp_map_res,
          Signal.isComp]

/-- C4: an adapter's run never propagates an exception — every run sends
exactly one `search_complete` signal, it is the last signal sent, an
uncaught error inside the search method yields `ok = false` with no
further candidates after those already emitted, and the same
single-completion contract holds for every concrete modelled source. -/
theorem c4_adapter_isolation (sourceName : String) (m : Option MethodRun) :
    ((workerRun sourceName m).filter Signal.isComp).length = 1 ∧
    (∃ b, (workerRun sourceName m).getLast? = some (.comp sourceName b)) ∧
    (∀ (emitted : List LogoResult) (msg : String),
      m = some ⟨emitted, .error msg⟩ →
      workerRun sourceName m = emitted.map .res ++ [.comp sourceName false]) ∧
    (∀ (ctx : WorkerCtx) (env : Env),
      ((runSource ctx env).filter Signal.isComp).length = 1) := by
  refine ⟨workerRun_one_comp sourceName m, ?_, ?_, ?_⟩
  · cases m with
    | none => exact ⟨false, rfl⟩
    | some mr =>
        obtain ⟨em, oc⟩ := mr
        cases oc with
        | ok b =>
            refine ⟨b, ?_⟩
            show (em.map Signal.res ++ [Signal.comp sourceName b]).getLast? = _
            rw [List.getLast?_concat]
        | error msg =>
            refine ⟨false, ?_⟩
            show (em.map Signal.res ++ [Signal.comp sourceName false]).getLast? = _
            rw [List.getLast?_concat]
  · intro emitted msg hm
    rw [hm]
    rfl
  · intro ctx env
    exact workerRun_one_comp _ _

/-- Witness for C4 at a concrete erroring method run. -/
theorem c4_adapter_isolation_witness :
    workerRun "BrandDB" (some ⟨[], Except.error "boom"⟩) =
      List.map Signal.res [] ++ [Signal.comp "BrandDB" false] :=
  (c4_adapter_isolation "BrandDB" (some ⟨[], Except.error "boom"⟩)).2.2.1
    [] "boom" rfl

/-- C5: cache put is an upsert on `(companyName, source, formatType)` —
after two writes with the same key, exactly one cache record with that
key remains, holding the second write's bytes and a timestamp refreshed
to the second write's time. -/
theorem c5_cache_upsert (db : DB) (now1 now2 : Int) (r1 r2 : LogoResult)
    (c src fmt : String)
    (h1c : r1.companyName = c) (h1s : r1.source = some src)
    (h1f : r1.formatType = some fmt)
    (h2c : r2.companyName = c) (h2s : r2.source = some src)
    (h2f : r2.formatType = some fmt) :
    (((db.addToCache now1 r1).2.addToCache now2 r2).2).logoCache.filter
        (fun q => cacheKeyEq q c src fmt) =
      [⟨c, src, fmt, r2.imageData, r2.imageURL, r2.width, r2.height,
        r2.score, now2⟩] := by
  simp [DB.addToCache, h1c, h1s, h1f, h2c, h2s, h2f, List.filter_append,
    filter_not_filter, cacheKeyEq]

/-- Witness for C5: two concrete writes under the key
`("acme", "Clearbit", "png")` with different bytes. -/
theorem c5_cache_upsert_witness :
    (((DB.empty.addToCache 1
          { companyName := "acme", imageData := some "A",
            source := some "Clearbit", formatType := some "png" }).2.addToCache 2
          { companyName := "acme", imageData := some "B",
            source := some "Clearbit", formatType := some "png" }).2).logoCache.filter
        (fun q => cacheKeyEq q "acme" "Clearbit" "png") =
      [⟨"acme", "Clearbit", "png", some "B", none, none, none, 0, 2⟩] :=
  c5_cache_upsert DB.empty 1 2
    { companyName := "acme", imageData := some "A",
      source := some "Clearbit", formatType := some "png" }
    { companyName := "acme", imageData := some "B",
      source := some "Clearbit", formatType := some "png" }
    "acme" "Clearbit" "png" rfl rfl rfl rfl rfl rfl

/-- C1 counterexample: on the cache-sufficient completion path the
orchestrator emits its terminal completion event (success hard-coded
`True`) but appends no History Entry at all — the history table stays
empty, refuting "appends exactly one History Entry ... on every path to
completion". -/
theorem c1_counterexample :
    ((start_search 0 LOGO_SOURCES (initManager "acme" c1settings c1db)).events.filter
        MEvent.isComplete).length = 1 ∧
    (start_search 0 LOGO_SOURCES
      (initManager "acme" c1settings c1db)).db.searchHistory = [] := by
  decide

/-- C1 (amended): the completion-event flag equals `resultCount > 0` on
each terminal path, but a History Entry is appended only on the drain
path (queue empty, last worker finished); the cache-sufficient path and
the early-stop path emit their completion event — with success `True` and
a nonempty result list — without writing any History Entry. -/
theorem c1_amended :
    (∀ (now : Int) (registry : List SourceDesc) (company : String)
        (settings : Settings) (db : DB) (cr : List LogoResult),
      cr = db.getFromCache now company settings.cacheExpiryDays →
      cr ≠ [] → settings.maxResults ≤ cr.length →
      settings.searchAllSources = false →
      (start_search now registry (initManager company settings db)).events =
          MEvent.progress ("Found " ++ toString cr.length ++ " logos in cache")
            :: cr.map MEvent.result ++ [MEvent.complete true cr] ∧
        (start_search now registry (initManager company settings db)).db = db ∧
        0 < cr.length) ∧
    (∀ (now : Int) (r : LogoResult) (s : ManagerState),
      s.settings.searchAllSources = false →
      s.settings.maxResults ≤ s.results.length + 1 →
      (handle_search_result now r s).events =
          s.events ++ [MEvent.result r, MEvent.complete true (s.results ++ [r])] ∧
        (handle_search_result now r s).db.searchHistory = s.db.searchHistory ∧
        0 < (s.results ++ [r]).length) ∧
    (∀ (now : Int) (name : String) (s : ManagerState),
      s.queue = [] → s.activeWorkers = 1 →
      (handle_search_complete now name s).db.searchHistory =
          s.db.searchHistory.filter (fun h => !(histKeyEq h s.company))
            ++ [⟨s.company, now, s.results.length⟩] ∧
        ((handle_search_complete now name s).db.searchHistory.filter
          (fun h => histKeyEq h s.company)).length = 1 ∧
        (handle_search_complete now name s).events =
          s.events ++ [MEvent.complete (decide (0 < s.results.length)) s.results]) := by
  refine ⟨?_, ?_, ?_⟩
  · intro now registry company settings db cr hcr hne hmax hsa
    unfold start_search initManager
    dsimp only
    rw [← hcr]
    rw [if_neg (by simp [List.isEmpty_iff, hne])]
    rw [if_pos (And.intro hmax (by simp [hsa]))]
    rw [cacheEmit_spec]
    refine ⟨?_, rfl, List.length_pos_of_ne_nil hne⟩
    simp
  · intro now r s hsa hmax
    unfold handle_search_result
    dsimp only
    rw [if_pos (And.intro (by simpa using hmax) (by simp [hsa]))]
    refine ⟨by simp, ?_, by simp⟩
    exact addToCache_searchHistory s.db now r
  · intro now name s hq ha
    unfold handle_search_complete start_workers
    dsimp only
    rw [hq, ha]
    simp only [startWorkersAux]
    rw [if_pos (And.intro (by decide) (by decide))]
    refine ⟨rfl, ?_, by simp⟩
    show ((s.db.addToHistory now s.company s.results.length).searchHistory.filter
      (fun h => histKeyEq h s.company)).length = 1
    unfold DB.addToHistory
    dsimp only
    rw [List.filter_append, filter_not_filter]
    simp [histKeyEq]

/-- Witness for C1 (amended): each of the three terminal paths at a
concrete input. -/
theorem c1_amended_witness :
    ((start_search 0 [] (initManager "acme" c1settings c1db)).events =
        MEvent.progress ("Found " ++ toString c1cache.length ++ " logos in cache")
          :: c1cache.map MEvent.result ++ [MEvent.complete true c1cache] ∧
      (start_search 0 [] (initManager "acme" c1settings c1db)).db = c1db ∧
      0 < c1cache.length) ∧
    ((handle_search_result 0 c1result (initManager "acme" c1settings DB.empty)).events =
        (initManager "acme" c1settings DB.empty).events ++
          [MEvent.result c1result, MEvent.complete true ([] ++ [c1result])] ∧
      (handle_search_result 0 c1result
        (initManager "acme" c1settings DB.empty)).db.searchHistory = [] ∧
      0 < ([] ++ [c1result] : List LogoResult).length) ∧
    ((handle_search_complete 0 "Clearbit" c1drainState).db.searchHistory =
        List.filter (fun h => !(histKeyEq h "acme")) [] ++ [⟨"acme", 0, 0⟩] ∧
      ((handle_search_complete 0 "Clearbit" c1drainState).db.searchHistory.filter
        (fun h => histKeyEq h "acme")).length = 1 ∧
      (handle_search_complete 0 "Clearbit" c1drainState).events =
        [] ++ [MEvent.complete (decide ((0 : Nat) < 0)) []]) :=
  ⟨c1_amended.1 0 [] "acme" c1settings c1db c1cache (by decide) (by decide)
      (by decide) rfl,
    c1_amended.2.1 0 c1result (initManager "acme" c1settings DB.empty) rfl
      (by decide),
    c1_amended.2.2 0 "Clearbit" c1drainState rfl rfl⟩

/-- C2 counterexample: with zero enabled sources and an empty cache,
`start_search` emits no event at all — in particular no completion event
— writes no History Entry, and starts no worker (so no handler can ever
fire), refuting "the completion event fires with success=false and an
empty result list, and exactly one History Entry ... is written". -/
theorem c2_counterexample :
    (start_search 0 c2registry (initManager "acme" {} DB.empty)).events = [] ∧
    (start_search 0 c2registry
      (initManager "acme" {} DB.empty)).db.searchHistory = [] ∧
    (start_search 0 c2registry
      (initManager "acme" {} DB.empty)).startedWorkers = [] ∧
    (start_search 0 c2registry (initManager "acme" {} DB.empty)).activeWorkers = 0 := by
  decide

/-- C2 (amended): with zero enabled sources and no fresh cache entries,
`start_search` returns having emitted no event, written nothing to the
database, and started no worker — the completion event never fires and no
History Entry is ever written, because completion is only checked inside
the worker-completion handler and no worker exists to invoke it. -/
theorem c2_amended (now : Int) (company : String) (settings : Settings)
    (db : DB) (registry : List SourceDesc)
    (hreg : registry.filter (fun d => d.enabled) = [])
    (hcache : db.getFromCache now company settings.cacheExpiryDays = []) :
    (start_search now registry (initManager company settings db)).events = [] ∧
    (start_search now registry (initManager company settings db)).db = db ∧
    (start_search now registry
      (initManager company settings db)).startedWorkers = [] ∧
    (start_search now registry
      (initManager company settings db)).activeWorkers = 0 ∧
    (start_search now registry (initManager company settings db)).queue = [] := by
  unfold start_search initManager
  dsimp only
  rw [hcache]
  simp only [List.isEmpty_nil, if_true]
  rw [hreg]
  simp [start_workers, startWorkersAux]

/-- Witness for C2 (amended) at the all-disabled registry and the empty
database. -/
theorem c2_amended_witness :
    (start_search 0 c2registry (initManager "acme" {} DB.empty)).events = [] ∧
    (start_search 0 c2registry (initManager "acme" {} DB.empty)).db = DB.empty ∧
    (start_search 0 c2registry
      (initManager "acme" {} DB.empty)).startedWorkers = [] ∧
    (start_search 0 c2registry
      (initManager "acme" {} DB.empty)).activeWorkers = 0 ∧
    (start_search 0 c2registry (initManager "acme" {} DB.empty)).queue = [] :=
  c2_amended 0 "acme" {} DB.empty c2registry (by decide) (by decide)

/-- C8 counterexample: there is no two-element set of registered source
names characterising the constant-failure stub adapters — BrandDB,
SocialMedia and VectorDB are three distinct registered sources whose
dispatched search is constantly `(False, no candidates)`. -/
theorem c8_counterexample :
    ¬ ∃ S : Finset String, S.card = 2 ∧
      ∀ d ∈ LOGO_SOURCES,
        ((∀ (ctx : WorkerCtx) (env : Env), dispatchRun d.name ctx env = (false, []))
          ↔ d.name ∈ S) := by
  rintro ⟨S, hcard, hchar⟩
  have hb : "BrandDB" ∈ S :=
    (hchar ⟨"BrandDB", 6, 70, true⟩ (by decide)).mp (fun _ _ => rfl)
  have hs : "SocialMedia" ∈ S :=
    (hchar ⟨"SocialMedia", 4, 75, true⟩ (by decide)).mp (fun _ _ => rfl)
  have hv : "VectorDB" ∈ S :=
    (hchar ⟨"VectorDB", 5, 80, true⟩ (by decide)).mp (fun _ _ => rfl)
  have hsub : ({"BrandDB", "SocialMedia", "VectorDB"} : Finset String) ⊆ S := by
    intro x hx
    simp only [Finset.mem_insert, Finset.mem_singleton] at hx
    rcases hx with h | h | h <;> subst h <;> assumption
  have h3 : 3 ≤ S.card := by
    have hc : ({"BrandDB", "SocialMedia", "VectorDB"} : Finset String).card = 3 := by
      decide
    calc 3 = ({"BrandDB", "SocialMedia", "VectorDB"} : Finset String).card :=
          hc.symm
      _ ≤ S.card := Finset.card_le_card hsub
  omega

/-- C8 (amended): exactly three of the registered source adapters —
BrandDB, SocialMedia, VectorDB — are stub placeholders whose search
deterministically returns failure and emits zero candidates on every
invocation; every other registered adapter succeeds on some
environment. -/
theorem c8_amended :
    (∀ d ∈ LOGO_SOURCES,
      ((∀ (ctx : WorkerCtx) (env : Env), dispatchRun d.name ctx env = (false, []))
        ↔ d.name ∈ stubNames)) ∧
    stubNames.length = 3 ∧ stubNames.Nodup ∧
    (∀ n ∈ stubNames, n ∈ LOGO_SOURCES.map SourceDesc.name) := by
  refine ⟨?_, by decide, by decide, by decide⟩
  intro d hd
  simp only [LOGO_SOURCES, List.mem_cons, List.not_mem_nil, or_false] at hd
  rcases hd with h | h | h | h | h | h | h | h | h | h | h <;> subst h
  · refine iff_of_false (fun hstub => ?_) (by decide)
    have h1 : (dispatchRun "SimpleIcons" ctxSimple envSimple).1 = true := by decide
    rw [hstub ctxSimple envSimple] at h1
    simp at h1
  · refine iff_of_false (fun hstub => ?_) (by decide)
    have h1 : (dispatchRun "Brandfetch" ctxBrand envBrand).1 = true := by decide
    rw [hstub ctxBrand envBrand] at h1
    simp at h1
  · refine iff_of_false (fun hstub => ?_) (by decide)
    have h1 : (dispatchRun "Clearbit" ctxClear envClear).1 = true := by decide
    rw [hstub ctxClear envClear] at h1
    simp at h1
  · refine iff_of_false (fun hstub => ?_) (by decide)
    have h1 : (dispatchRun "Wikipedia" ctxWiki envWiki).1 = true := by decide
    rw [hstub ctxWiki envWiki] at h1
    simp at h1
  · exact iff_of_true (fun _ _ => rfl) (by decide)
  · refine iff_of_false (fun hstub => ?_) (by decide)
    have h1 : (dispatchRun "CompanyWebsite" ctxSite envSite).1 = true := by decide
    rw [hstub ctxSite envSite] at h1
    simp at h1
  · exact iff_of_true (fun _ _ => rfl) (by decide)
  · refine iff_of_false (fun hstub => ?_) (by decide)
    have h1 : (dispatchRun "GoogleSearch" ctxGoogle envGoogle).1 = true := by decide
    rw [hstub ctxGoogle envGoogle] at h1
    simp at h1
  · refine iff_of_false (fun hstub => ?_) (by decide)
    have h1 : (dispatchRun "BingSearch" ctxBing envBing).1 = true := by decide
    rw [hstub ctxBing envBing] at h1
    simp at h1
  · refine iff_of_false (fun hstub => ?_) (by decide)
    have h1 : (dispatchRun "DuckDuckGo" ctxDuck envDuck).1 = true := by decide
    rw [hstub ctxDuck envDuck] at h1
    simp at h1
  · exact iff_of_true (fun _ _ => rfl) (by decide)

/-- Witness for C8 (amended): the characterisation applied to the
registered BrandDB descriptor at a concrete invocation. -/
theorem c8_amended_witness :
    dispatchRun "BrandDB" ctxSimple envSimple = (false, []) :=
  ((c8_amended.1 ⟨"BrandDB", 6, 70, true⟩ (by decide)).mpr (by decide))
    ctxSimple envSimple

end LogoDL
